import Mathlib

/-!
Verification of the Credential Pool and Access Gatekeeper subsystem of the
exa-mcp-server fork.

The definitions below are a shallow embedding of the TypeScript source:

* `ApiKeyManager` (apiKeyManager.ts): key pool with cooldown/rotation/death,
  embedded as pure state-passing functions over `ManagerState`.  JavaScript
  `Date.now()` is an explicit `now : Nat` argument (milliseconds); the
  elapsed-time comparison is computed in `Int` exactly as in JS arithmetic.
* `makeExaRequest` / `isBalanceError` (exaClient.ts): the failover request
  executor, with the two HTTP attempts supplied as outcome oracles
  (`firstCall`, `retryCall : String → CallOutcome T`), since the real network
  effect is outside the program.
* `TokenManager` (tokenManager.ts) and `authMiddleware.ts`: token registry,
  validation, stats, masking, and the auth-required check, with environment
  variables supplied as an explicit `EnvConfig` and JS `Date` parsing as an
  oracle `parseDate : String → Option Nat`.

JS string helpers (`split`, `trim`, `toLowerCase`) are re-implemented
structurally over `List Char` so that every definition evaluates by `decide`.
-/

/-! ## JS string helpers -/

/-- The ASCII whitespace characters matched by JS `\s` / `trim` (the
non-ASCII members of the class are irrelevant to this code base). -/
def jsWhitespace (c : Char) : Bool :=
  c = ' ' ∨ c = '\t' ∨ c = '\n' ∨ c = '\r' ∨ c = '\x0b' ∨ c = '\x0c'

/-- JS `String.prototype.split` with a single-character separator, at the
`List Char` level.  `"".split(sep)` is `[""]`, as in JS. -/
def splitOnChar (sep : Char) : List Char → List (List Char)
  | [] => [[]]
  | c :: rest =>
    let r := splitOnChar sep rest
    if c = sep then [] :: r
    else
      match r with
      | h :: t => (c :: h) :: t
      | [] => [[c]]

/-- JS `String.prototype.split` with a one-character separator. -/
def jsSplit (sep : Char) (s : String) : List String :=
  (splitOnChar sep s.data).map String.mk

/-- JS `String.prototype.trim` (restricted to the ASCII whitespace class). -/
def jsTrim (s : String) : String :=
  String.mk (((s.data.dropWhile jsWhitespace).reverse.dropWhile jsWhitespace).reverse)

/-- JS `String.prototype.toLowerCase` (ASCII case mapping). -/
def jsToLower (s : String) : String :=
  String.mk (s.data.map Char.toLower)

/-- JS `String.prototype.includes`: substring containment. -/
def containsSubstring (hay needle : String) : Bool :=
  decide (needle.data <:+: hay.data)

/-! ## ApiKeyManager (apiKeyManager.ts) -/

/-- `KeyState` from apiKeyManager.ts. -/
structure KeyState where
  key : String
  failedAt : Option Nat
  retryCount : Nat
  isDead : Bool
deriving Repr, DecidableEq

/-- `KeyManagerConfig` from apiKeyManager.ts. -/
structure KeyManagerConfig where
  cooldownMs : Nat
  maxRetries : Nat
deriving Repr, DecidableEq

/-- `DEFAULT_CONFIG`: 3 minutes cooldown, 3 retries. -/
def DEFAULT_CONFIG : KeyManagerConfig := ⟨3 * 60 * 1000, 3⟩

/-- The mutable fields of class `ApiKeyManager`: the key list and the
rotation cursor `currentIndex`. -/
structure ManagerState where
  keys : List KeyState
  currentIndex : Nat
deriving Repr, DecidableEq

/-- `ApiKeyManager.isKeyAvailable`: not dead, and either never failed or the
cooldown has elapsed.  `elapsed = Date.now() - keyState.failedAt` is computed
in `Int` exactly as JS number arithmetic. -/
def isKeyAvailable (cfg : KeyManagerConfig) (now : Nat) (k : KeyState) : Bool :=
  if k.isDead then false
  else
    match k.failedAt with
    | none => true
    | some t => (cfg.cooldownMs : Int) ≤ (now : Int) - (t : Int)

/-- The in-place mutation inside `getActiveKey`: clear `failedAt` once the
cooldown has passed (`retryCount` is deliberately not reset). -/
def clearIfCooldownPassed (cfg : KeyManagerConfig) (now : Nat) (k : KeyState) : KeyState :=
  match k.failedAt with
  | some t =>
    if (cfg.cooldownMs : Int) ≤ (now : Int) - (t : Int) then { k with failedAt := none }
    else k
  | none => k

/-- The `while (attempts < this.keys.length)` scan of `getActiveKey`,
with `attempts` counting down as fuel.  On finding an available key at the
cursor it clears that key's `failedAt` (if cooldown passed) and returns its
secret; otherwise it advances the cursor modulo the pool size.  The
out-of-range `none` lookup branch is unreachable for an in-range cursor. -/
def getActiveKeyLoop (cfg : KeyManagerConfig) (now : Nat) :
    Nat → ManagerState → Option String × ManagerState
  | 0, s => (none, s)
  | Nat.succ fuel, s =>
    match s.keys.get? s.currentIndex with
    | none => (none, s)
    | some k =>
      if isKeyAvailable cfg now k then
        (some k.key, { s with keys := s.keys.set s.currentIndex (clearIfCooldownPassed cfg now k) })
      else
        getActiveKeyLoop cfg now fuel { s with currentIndex := (s.currentIndex + 1) % s.keys.length }

/-- `ApiKeyManager.getActiveKey`: returns the current active API key, or
`none` if all keys are exhausted or in cooldown. -/
def getActiveKey (cfg : KeyManagerConfig) (now : Nat) (s : ManagerState) :
    Option String × ManagerState :=
  if s.keys.length = 0 then (none, s)
  else getActiveKeyLoop cfg now s.keys.length s

/-- The do/while loop of `rotateToNextKey`: advance the cursor (wrapping),
stop with `true` at the first available key, or with `false` once the cursor
has come back to `startIndex`. -/
def rotateLoop (cfg : KeyManagerConfig) (now : Nat) (startIndex : Nat) :
    Nat → ManagerState → Bool × ManagerState
  | 0, s => (false, s)
  | Nat.succ fuel, s =>
    let idx := (s.currentIndex + 1) % s.keys.length
    let s' := { s with currentIndex := idx }
    match s'.keys.get? idx with
    | none => (false, s')
    | some k =>
      if isKeyAvailable cfg now k then (true, s')
      else if idx = startIndex then (false, s')
      else rotateLoop cfg now startIndex fuel s'

/-- `ApiKeyManager.rotateToNextKey`: rotate to the next available key;
`true` iff one was found. -/
def rotateToNextKey (cfg : KeyManagerConfig) (now : Nat) (s : ManagerState) :
    Bool × ManagerState :=
  rotateLoop cfg now s.currentIndex s.keys.length s

/-- `ApiKeyManager.markCurrentKeyFailed`: stamp `failedAt = now`, increment
`retryCount`, mark dead once `retryCount` reaches `maxRetries`, then rotate.
The persistence write (`saveStateToKv`) only mirrors the in-memory mutation
and is not modelled. -/
def markCurrentKeyFailed (cfg : KeyManagerConfig) (now : Nat) (s : ManagerState) :
    Bool × ManagerState :=
  if s.keys.length = 0 then (false, s)
  else
    match s.keys.get? s.currentIndex with
    | none => (false, s)
    | some k =>
      let k1 : KeyState := { k with failedAt := some now, retryCount := k.retryCount + 1 }
      let k2 : KeyState := if cfg.maxRetries ≤ k1.retryCount then { k1 with isDead := true } else k1
      rotateToNextKey cfg now { s with keys := s.keys.set s.currentIndex k2 }

/-- The key record `markCurrentKeyFailed` writes back at the cursor (the
`k2` value: `failedAt = now`, incremented `retryCount`, dead once
`retryCount` reaches `maxRetries`). -/
def failedKeyUpdate (cfg : KeyManagerConfig) (now : Nat) (k : KeyState) : KeyState :=
  if cfg.maxRetries ≤ k.retryCount + 1 then
    { key := k.key, failedAt := some now, retryCount := k.retryCount + 1, isDead := true }
  else
    { key := k.key, failedAt := some now, retryCount := k.retryCount + 1, isDead := k.isDead }

/-- The `{total, active, cooldown, dead}` snapshot of `getStatus`. -/
structure PoolStatus where
  total : Nat
  active : Nat
  cooldown : Nat
  dead : Nat
deriving Repr, DecidableEq

/-- `ApiKeyManager.getStatus`: dead if the dead flag is set, else active if
available, else cooldown; `total` is the pool size. -/
def getStatus (cfg : KeyManagerConfig) (now : Nat) (s : ManagerState) : PoolStatus :=
  s.keys.foldl
    (fun st k =>
      if k.isDead then { st with dead := st.dead + 1 }
      else if isKeyAvailable cfg now k then { st with active := st.active + 1 }
      else { st with cooldown := st.cooldown + 1 })
    ⟨s.keys.length, 0, 0, 0⟩

/-- `ApiKeyManager.resetAllKeys`: clear every key's failure state and reset
the cursor to 0. -/
def resetAllKeys (s : ManagerState) : ManagerState :=
  { keys := s.keys.map (fun k => { k with failedAt := none, retryCount := 0, isDead := false }),
    currentIndex := 0 }

/-! ## Exa client / failover request executor (exaClient.ts) -/

/-- `BALANCE_ERROR_CODES` from exaClient.ts. -/
def BALANCE_ERROR_CODES : List Nat := [402, 429]

/-- `BALANCE_ERROR_KEYWORDS` from exaClient.ts. -/
def BALANCE_ERROR_KEYWORDS : List String :=
  ["balance", "quota", "credit", "limit", "insufficient", "exceeded", "payment"]

/-- `isBalanceError`: a fixed set of status codes, or a 403 whose (truthy)
error message contains a balance keyword case-insensitively. -/
def isBalanceError (status : Nat) (errorMessage : String) : Bool :=
  if BALANCE_ERROR_CODES.contains status then true
  else if status = 403 ∧ errorMessage ≠ "" then
    BALANCE_ERROR_KEYWORDS.any (fun kw => containsSubstring (jsToLower errorMessage) kw)
  else false

/-- The status code `executeWithFetch` attaches to a timeout (`AbortError`)
outcome. -/
def timeoutErrorStatus : Nat := 408

/-- The message `executeWithFetch` attaches to a timeout outcome. -/
def timeoutErrorMessage (timeoutMs : Nat) : String :=
  "Request timeout after " ++ toString timeoutMs ++ "ms"

/-- Outcome of one `executeRequest` HTTP attempt: the parsed success value,
or a failure with the extracted status code and error message (status 0 when
the error carries no response, as in `extractStatusCode`). -/
inductive CallOutcome (T : Type) where
  | success (v : T)
  | failure (status : Nat) (msg : String)
deriving Repr, DecidableEq

/-- Result of `makeExaRequest`: success, the "no API key available" error,
the distinguished "all API keys exhausted" error carrying the
`getStatus()` snapshot, or a propagated request failure. -/
inductive ExaResult (T : Type) where
  | ok (v : T)
  | noKeyError
  | poolExhausted (snapshot : PoolStatus)
  | err (status : Nat) (msg : String)
deriving Repr, DecidableEq

/-- `makeExaRequest` from exaClient.ts.  The two possible HTTP attempts are
supplied as oracles mapping the api key used to the attempt's outcome
(`firstCall` for the initial attempt, `retryCall` for the post-rotation
retry).  JS truthiness of the override key and of the keys returned by the
manager (`if (!apiKey)` / `if (newKey)`) is modelled by `≠ ""` tests. -/
def makeExaRequest {T : Type} (cfg : KeyManagerConfig) (now : Nat)
    (overrideKey : Option String) (s : ManagerState)
    (firstCall retryCall : String → CallOutcome T) : ExaResult T × ManagerState :=
  if overrideKey.getD "" ≠ "" then
    -- caller-supplied key: usingManagedKey = false, any failure is rethrown
    match firstCall (overrideKey.getD "") with
    | .success v => (.ok v, s)
    | .failure st m => (.err st m, s)
  else
    match getActiveKey cfg now s with
    | (none, s1) => (.noKeyError, s1)
    | (some key, s1) =>
      if key = "" then (.noKeyError, s1)
      else
        match firstCall key with
        | .success v => (.ok v, s1)
        | .failure st m =>
          if isBalanceError st m then
            match markCurrentKeyFailed cfg now s1 with
            | (true, s2) =>
              match getActiveKey cfg now s2 with
              | (some nk, s3) =>
                if nk ≠ "" then
                  match retryCall nk with
                  | .success v => (.ok v, s3)
                  | .failure st2 m2 => (.err st2 m2, s3)
                else (.poolExhausted (getStatus cfg now s3), s3)
              | (none, s3) => (.poolExhausted (getStatus cfg now s3), s3)
            | (false, s2) => (.poolExhausted (getStatus cfg now s2), s2)
          else (.err st m, s1)

/-! ## TokenManager (tokenManager.ts) and authMiddleware.ts -/

/-- `TokenRole`. -/
inductive TokenRole where
  | admin
  | user
deriving Repr, DecidableEq

/-- `TokenInfo` (the optional `metadata` field is never read and is not
modelled).  Timestamps are milliseconds. -/
structure TokenInfo where
  token : String
  userId : Option String
  role : TokenRole
  expiresAt : Option Nat
  createdAt : Nat
  lastUsedAt : Option Nat
  usageCount : Nat
  isActive : Bool
deriving Repr, DecidableEq

/-- `TokenValidationResult`. -/
structure TokenValidationResult where
  valid : Bool
  token : Option TokenInfo
  reason : Option String
deriving Repr, DecidableEq

/-- The registry `tokens : Map<string, TokenInfo>` in insertion order.  The
`Map` key of each entry is its `token` field. -/
def TokenRegistry := List TokenInfo

/-- `tokenInfo.expiresAt && new Date() > tokenInfo.expiresAt`. -/
def tokenExpired (now : Nat) (t : TokenInfo) : Bool :=
  match t.expiresAt with
  | some e => e < now
  | none => false

/-- `TokenManager.validate`: direct `Map` lookup of the provided token, then
the active and expiry checks. -/
def validate (tokens : List TokenInfo) (now : Nat) (providedToken : String) :
    TokenValidationResult :=
  match tokens.find? (fun t => t.token = providedToken) with
  | none => ⟨false, none, some "Token not found"⟩
  | some info =>
    if !info.isActive then ⟨false, some info, some "Token is disabled"⟩
    else if tokenExpired now info then ⟨false, some info, some "Token has expired"⟩
    else ⟨true, some info, none⟩

/-- `constantTimeEqual` from tokenManager.ts: length check, then an OR-fold
of the XORs of the code points. -/
def constantTimeEqual (a b : String) : Bool :=
  if a.length ≠ b.length then false
  else
    ((a.data.zip b.data).foldl (fun result p => result ||| (p.1.toNat ^^^ p.2.toNat)) 0) = 0

/-- A JS `.` regex atom: any character except a line terminator. -/
def dotMatches (c : Char) : Bool := ¬ (c = '\n' ∨ c = '\r')

/-- The regex `/^Bearer\s+(.+)$/i` applied to the header: a case-insensitive
`Bearer`, one or more whitespace characters, then a non-empty remainder each
character of which is matched by `.`; returns the captured group.  With a
greedy `\s+`, the group is the remainder after the maximal whitespace run,
except that when the remainder is empty the regex backtracks one whitespace
character into the group. -/
def parseBearer (h : String) : Option String :=
  let cs := h.data
  if (String.mk (cs.take 6) |> jsToLower) = "bearer" then
    let r := cs.drop 6
    let w := r.takeWhile jsWhitespace
    let t := r.dropWhile jsWhitespace
    if w.isEmpty then none
    else if t.any (fun c => ¬ dotMatches c) then none
    else if ¬ t.isEmpty then some (String.mk t)
    else
      match w.getLast? with
      | some c => if dotMatches c then some (String.mk [c]) else none
      | none => none
  else none

/-- `TokenManager.validateAuthHeader`: empty registry short-circuits to a
valid (auth-disabled) result; then the header is required (JS truthiness),
parsed as a bearer token, and compared in constant time against every stored
token. -/
def validateAuthHeader (tokens : List TokenInfo) (now : Nat)
    (authHeader : Option String) : TokenValidationResult :=
  if tokens.isEmpty then ⟨true, none, some "No auth configured"⟩
  else
    match authHeader with
    | none => ⟨false, none, some "No Authorization header"⟩
    | some h =>
      if h = "" then ⟨false, none, some "No Authorization header"⟩
      else
        match parseBearer h with
        | none => ⟨false, none, some "Invalid Authorization format"⟩
        | some providedToken =>
          match tokens.find? (fun t => constantTimeEqual providedToken t.token) with
          | none => ⟨false, none, some "Token not found"⟩
          | some info =>
            if !info.isActive then ⟨false, some info, some "Token is disabled"⟩
            else if tokenExpired now info then ⟨false, some info, some "Token has expired"⟩
            else ⟨true, some info, none⟩

/-- `TokenUsageStats` (`tokensByUser` is an association list in first-seen
order, as a JS `Record` populated in iteration order). -/
structure TokenUsageStats where
  totalTokens : Nat
  activeTokens : Nat
  expiredTokens : Nat
  totalUsage : Nat
  tokensByUser : List (String × Nat)
deriving Repr, DecidableEq

/-- `tokensByUser[userKey] = (tokensByUser[userKey] || 0) + 1`. -/
def bumpUser (l : List (String × Nat)) (u : String) : List (String × Nat) :=
  if l.any (fun p => p.1 = u) then
    l.map (fun p => if p.1 = u then (p.1, p.2 + 1) else p)
  else l ++ [(u, 1)]

/-- `TokenManager.getStats`: one pass over the registry; an expired token
counts as expired regardless of its `isActive` flag, an unexpired active one
as active, and a disabled unexpired one only in `totalTokens`. -/
def getStats (now : Nat) (tokens : List TokenInfo) : TokenUsageStats :=
  tokens.foldl
    (fun st t =>
      let expired := tokenExpired now t
      { totalTokens := st.totalTokens
        activeTokens := st.activeTokens + (if ¬ expired ∧ t.isActive then 1 else 0)
        expiredTokens := st.expiredTokens + (if expired then 1 else 0)
        totalUsage := st.totalUsage + t.usageCount
        tokensByUser := bumpUser st.tokensByUser (t.userId.getD "anonymous") })
    ⟨tokens.length, 0, 0, 0, []⟩

/-- `tokenInfo.token.substring(0, 8) + '...'` from `listTokens`. -/
def maskToken (tok : String) : String :=
  String.mk (tok.data.take 8 ++ "...".data)

/-- One entry of the `listTokens()` result (`tokenMasked` is the
`tokenPrefix` field of the source). -/
structure ListedToken where
  tokenMasked : String
  userId : Option String
  role : TokenRole
  expiresAt : Option Nat
  isActive : Bool
  isExpired : Bool
  usageCount : Nat
  lastUsedAt : Option Nat
deriving Repr, DecidableEq

/-- `TokenManager.listTokens`. -/
def listTokens (now : Nat) (tokens : List TokenInfo) : List ListedToken :=
  tokens.map (fun t =>
    ⟨maskToken t.token, t.userId, t.role, t.expiresAt, t.isActive,
      tokenExpired now t, t.usageCount, t.lastUsedAt⟩)

/-- `TokenManager.hasTokens`: `this.tokens.size > 0`. -/
def hasTokens (tokens : List TokenInfo) : Bool :=
  0 < tokens.length

/-- The environment variables read by the token configuration code
(`undefined` is `none`). -/
structure EnvConfig where
  userTokens : Option String
  mcpAuthToken : Option String
deriving Repr, DecidableEq

/-- JS truthiness of a `string | undefined` value. -/
def jsTruthy (v : Option String) : Bool :=
  match v with
  | none => false
  | some s => s ≠ ""

/-- `getAuthToken` from authMiddleware.ts: the `MCP_AUTH_TOKEN` variable. -/
def getAuthToken (env : EnvConfig) : Option String :=
  env.mcpAuthToken

/-- `isAuthRequired` from authMiddleware.ts: `!!getAuthToken()`. -/
def isAuthRequired (env : EnvConfig) : Bool :=
  jsTruthy (getAuthToken env)

/-- One parsed entry of `getTokensConfig`. -/
structure TokenConfigEntry where
  token : String
  userId : Option String
  role : TokenRole
  expiresAt : Option Nat
deriving Repr, DecidableEq

/-- The "never expires" sentinels accepted by the expiry parser. -/
def NEVER_EXPIRY_SENTINELS : List String := ["never", "infinite", "∞", "none", "-"]

/-- Parsing of one `token:userId:expiry` entry of `USER_TOKENS`
(`parseDate` is the oracle for `new Date(expiryStr)`, `none` meaning an
invalid date, which is logged and treated as "never expires"). -/
def parseTokenEntry (parseDate : String → Option Nat) (entry : String) :
    Option TokenConfigEntry :=
  let parts := jsSplit ':' entry
  let token := jsTrim ((parts.get? 0).getD "")
  let userId :=
    match parts.get? 1 with
    | some u => if jsTrim u = "" then none else some (jsTrim u)
    | none => none
  let expiryStr := (parts.get? 2).map (fun e => jsToLower (jsTrim e))
  if token = "" then none
  else
    let expiresAt : Option Nat :=
      match expiryStr with
      | some e =>
        if e ≠ "" ∧ ¬ NEVER_EXPIRY_SENTINELS.contains e then parseDate e
        else none
      | none => none
    some ⟨token, userId, TokenRole.user, expiresAt⟩

/-- `TokenManager.getTokensConfig`: the `USER_TOKENS` entries (all with
`user` role), falling back to a single `admin` record from `MCP_AUTH_TOKEN`
only when the multi-entry list produced nothing. -/
def getTokensConfig (parseDate : String → Option Nat) (env : EnvConfig) :
    List TokenConfigEntry :=
  let tokensEnv := env.userTokens.getD ""
  let singleToken := env.mcpAuthToken.getD ""
  let configs :=
    if tokensEnv ≠ "" then
      (((jsSplit ',' tokensEnv).map jsTrim).filter (fun s => s ≠ "")).filterMap
        (parseTokenEntry parseDate)
    else []
  if configs = [] ∧ singleToken ≠ "" then
    [⟨singleToken, none, TokenRole.admin, none⟩]
  else configs

/-- `this.tokens.set(config.token, tokenInfo)`: replace in place if the key
exists (keeping its position, as a JS `Map` does), else append. -/
def upsertToken (l : List TokenInfo) (t : TokenInfo) : List TokenInfo :=
  if l.any (fun x => x.token = t.token) then
    l.map (fun x => if x.token = t.token then t else x)
  else l ++ [t]

/-- `TokenManager.initialize` (the in-memory part): build the registry from
the parsed configuration, with fresh bookkeeping fields. -/
def initializeTokens (parseDate : String → Option Nat) (createdAt : Nat)
    (env : EnvConfig) : List TokenInfo :=
  (getTokensConfig parseDate env).foldl
    (fun acc c =>
      upsertToken acc ⟨c.token, c.userId, c.role, c.expiresAt, createdAt, none, 0, true⟩)
    []
/-! ## Helper lemmas: the pool scan and rotation loops -/

lemma clearIfCooldownPassed_fields (cfg : KeyManagerConfig) (now : Nat) (k : KeyState) :
    (clearIfCooldownPassed cfg now k).isDead = k.isDead ∧
    (clearIfCooldownPassed cfg now k).key = k.key ∧
    (clearIfCooldownPassed cfg now k).retryCount = k.retryCount := by
  cases h : k.failedAt <;> simp [clearIfCooldownPassed, h]
  split <;> simp

lemma getActiveKeyLoop_none_keys (cfg : KeyManagerConfig) (now : Nat) :
    ∀ (fuel : Nat) (s : ManagerState),
      (getActiveKeyLoop cfg now fuel s).1 = none →
      (getActiveKeyLoop cfg now fuel s).2.keys = s.keys := by
  intro fuel
  induction fuel with
  | zero => intro s _; rfl
  | succ fuel ih =>
    intro s hr
    cases hk : s.keys.get? s.currentIndex with
    | none => simp only [getActiveKeyLoop, hk]
    | some k =>
      by_cases ha : isKeyAvailable cfg now k = true
      · simp only [getActiveKeyLoop, hk] at hr
        rw [if_pos ha] at hr
        simp at hr
      · simp only [getActiveKeyLoop, hk] at hr ⊢
        rw [if_neg ha] at hr ⊢
        exact ih ⟨s.keys, (s.currentIndex + 1) % s.keys.length⟩ hr

lemma getActiveKeyLoop_none_cursor (cfg : KeyManagerConfig) (now : Nat) :
    ∀ (fuel : Nat) (s : ManagerState), s.currentIndex < s.keys.length →
      (getActiveKeyLoop cfg now fuel s).1 = none →
      (getActiveKeyLoop cfg now fuel s).2.currentIndex =
        (s.currentIndex + fuel) % s.keys.length := by
  intro fuel
  induction fuel with
  | zero =>
    intro s hlt _
    simp only [getActiveKeyLoop, Nat.add_zero, Nat.mod_eq_of_lt hlt]
  | succ fuel ih =>
    intro s hlt hr
    cases hk : s.keys.get? s.currentIndex with
    | none =>
      exact absurd hlt (Nat.not_lt.mpr (List.get?_eq_none.mp hk))
    | some k =>
      by_cases ha : isKeyAvailable cfg now k = true
      · simp only [getActiveKeyLoop, hk] at hr
        rw [if_pos ha] at hr
        simp at hr
      · have hlen : 0 < s.keys.length := Nat.lt_of_le_of_lt (Nat.zero_le _) hlt
        have h2 : (s.currentIndex + 1) % s.keys.length < s.keys.length := Nat.mod_lt _ hlen
        simp only [getActiveKeyLoop, hk] at hr ⊢
        rw [if_neg ha] at hr ⊢
        have hrec := ih ⟨s.keys, (s.currentIndex + 1) % s.keys.length⟩ h2 hr
        dsimp only at hrec
        rw [hrec, Nat.mod_add_mod]
        congr 1
        omega

lemma getActiveKeyLoop_some (cfg : KeyManagerConfig) (now : Nat) :
    ∀ (fuel : Nat) (s : ManagerState) (str : String) (s' : ManagerState),
      getActiveKeyLoop cfg now fuel s = (some str, s') →
      ∃ k, s.keys.get? s'.currentIndex = some k ∧ isKeyAvailable cfg now k = true ∧
        str = k.key ∧
        s'.keys = s.keys.set s'.currentIndex (clearIfCooldownPassed cfg now k) ∧
        s'.currentIndex < s.keys.length := by
  intro fuel
  induction fuel with
  | zero => intro s str s' h; simp [getActiveKeyLoop] at h
  | succ fuel ih =>
    intro s str s' h
    cases hk : s.keys.get? s.currentIndex with
    | none =>
      simp only [getActiveKeyLoop, hk] at h
      simp at h
    | some k =>
      by_cases ha : isKeyAvailable cfg now k = true
      · simp only [getActiveKeyLoop, hk] at h
        rw [if_pos ha] at h
        simp only [Prod.mk.injEq, Option.some.injEq] at h
        obtain ⟨h1, h2⟩ := h
        obtain ⟨hlt, -⟩ := List.get?_eq_some.mp hk
        subst h2
        exact ⟨k, hk, ha, h1.symm, rfl, hlt⟩
      · simp only [getActiveKeyLoop, hk] at h
        rw [if_neg ha] at h
        exact ih ⟨s.keys, (s.currentIndex + 1) % s.keys.length⟩ str s' h

lemma getActiveKey_none (cfg : KeyManagerConfig) (now : Nat) (s : ManagerState)
    (s' : ManagerState) (h : getActiveKey cfg now s = (none, s')) :
    s'.keys = s.keys ∧
    (s.currentIndex < s.keys.length → s'.currentIndex = s.currentIndex) := by
  by_cases hlen : s.keys.length = 0
  · simp only [getActiveKey] at h
    rw [if_pos hlen] at h
    simp only [Prod.mk.injEq] at h
    obtain ⟨-, h2⟩ := h
    subst h2
    exact ⟨rfl, fun _ => rfl⟩
  · simp only [getActiveKey] at h
    rw [if_neg hlen] at h
    constructor
    · have hkeys := getActiveKeyLoop_none_keys cfg now s.keys.length s
      rw [h] at hkeys
      exact hkeys rfl
    · intro hlt
      have hcur := getActiveKeyLoop_none_cursor cfg now s.keys.length s hlt
      rw [h] at hcur
      have h2 := hcur rfl
      rwa [Nat.add_mod_right, Nat.mod_eq_of_lt hlt] at h2

lemma getActiveKey_some (cfg : KeyManagerConfig) (now : Nat) (s : ManagerState)
    (str : String) (s' : ManagerState) (h : getActiveKey cfg now s = (some str, s')) :
    ∃ k, s.keys.get? s'.currentIndex = some k ∧ isKeyAvailable cfg now k = true ∧
      str = k.key ∧
      s'.keys = s.keys.set s'.currentIndex (clearIfCooldownPassed cfg now k) ∧
      s'.currentIndex < s.keys.length := by
  by_cases hlen : s.keys.length = 0
  · simp only [getActiveKey] at h
    rw [if_pos hlen] at h
    simp at h
  · simp only [getActiveKey] at h
    rw [if_neg hlen] at h
    exact getActiveKeyLoop_some cfg now s.keys.length s str s' h

lemma getActiveKey_avail_at_cursor (cfg : KeyManagerConfig) (now : Nat)
    (s : ManagerState) (k : KeyState) (hk : s.keys.get? s.currentIndex = some k)
    (ha : isKeyAvailable cfg now k = true) :
    getActiveKey cfg now s =
      (some k.key,
        { s with keys := s.keys.set s.currentIndex (clearIfCooldownPassed cfg now k) }) := by
  obtain ⟨hlt, -⟩ := List.get?_eq_some.mp hk
  have hlen : s.keys.length ≠ 0 := by omega
  rw [getActiveKey, if_neg hlen]
  cases hfuel : s.keys.length with
  | zero => exact absurd hfuel hlen
  | succ m =>
    simp only [getActiveKeyLoop, hk]
    rw [if_pos ha]

lemma rotateLoop_spec (cfg : KeyManagerConfig) (now : Nat) (start : Nat) :
    ∀ (fuel : Nat) (s : ManagerState) (b : Bool) (s' : ManagerState),
      rotateLoop cfg now start fuel s = (b, s') →
      s'.keys = s.keys ∧
      (b = true → ∃ k, s.keys.get? s'.currentIndex = some k ∧
        isKeyAvailable cfg now k = true ∧ s'.currentIndex < s.keys.length) := by
  intro fuel
  induction fuel with
  | zero =>
    intro s b s' h
    simp only [rotateLoop, Prod.mk.injEq] at h
    obtain ⟨h1, h2⟩ := h
    subst h1
    subst h2
    exact ⟨rfl, by simp⟩
  | succ fuel ih =>
    intro s b s' h
    simp only [rotateLoop] at h
    cases hk : s.keys.get? ((s.currentIndex + 1) % s.keys.length) with
    | none =>
      rw [hk] at h
      dsimp only at h
      simp only [Prod.mk.injEq] at h
      obtain ⟨h1, h2⟩ := h
      subst h1
      subst h2
      exact ⟨rfl, by simp⟩
    | some k =>
      rw [hk] at h
      dsimp only at h
      by_cases ha : isKeyAvailable cfg now k = true
      · rw [if_pos ha] at h
        simp only [Prod.mk.injEq] at h
        obtain ⟨h1, h2⟩ := h
        subst h2
        refine ⟨rfl, fun _ => ⟨k, hk, ha, ?_⟩⟩
        obtain ⟨hlt, -⟩ := List.get?_eq_some.mp hk
        exact hlt
      · rw [if_neg ha] at h
        by_cases hidx : (s.currentIndex + 1) % s.keys.length = start
        · rw [if_pos hidx] at h
          simp only [Prod.mk.injEq] at h
          obtain ⟨h1, h2⟩ := h
          subst h1
          subst h2
          exact ⟨rfl, by simp⟩
        · rw [if_neg hidx] at h
          exact ih ⟨s.keys, (s.currentIndex + 1) % s.keys.length⟩ b s' h

lemma markCurrentKeyFailed_eq (cfg : KeyManagerConfig) (now : Nat) (s : ManagerState)
    (k : KeyState) (hk : s.keys.get? s.currentIndex = some k) :
    markCurrentKeyFailed cfg now s =
      rotateToNextKey cfg now
        { s with keys := s.keys.set s.currentIndex (failedKeyUpdate cfg now k) } := by
  rw [failedKeyUpdate]
  obtain ⟨hlt, -⟩ := List.get?_eq_some.mp hk
  have hlen : s.keys.length ≠ 0 := by omega
  rw [markCurrentKeyFailed, if_neg hlen]
  simp only [hk]

lemma failedKeyUpdate_fields (cfg : KeyManagerConfig) (now : Nat) (k : KeyState) :
    (failedKeyUpdate cfg now k).retryCount = k.retryCount + 1 ∧
    (failedKeyUpdate cfg now k).failedAt = some now ∧
    (failedKeyUpdate cfg now k).key = k.key ∧
    (failedKeyUpdate cfg now k).isDead =
      (if cfg.maxRetries ≤ k.retryCount + 1 then true else k.isDead) := by
  rw [failedKeyUpdate]
  split <;> simp

lemma getActiveKey_preserves_fields (cfg : KeyManagerConfig) (now : Nat)
    (s : ManagerState) (j : Nat) (k : KeyState) (hj : s.keys.get? j = some k) :
    ∃ k', (getActiveKey cfg now s).2.keys.get? j = some k' ∧
      k'.isDead = k.isDead ∧ k'.key = k.key ∧ k'.retryCount = k.retryCount := by
  rcases hres : getActiveKey cfg now s with ⟨r, s'⟩
  cases r with
  | none =>
    have hkeys := (getActiveKey_none cfg now s s' hres).1
    refine ⟨k, ?_, rfl, rfl, rfl⟩
    show s'.keys.get? j = some k
    rw [hkeys]
    exact hj
  | some str =>
    obtain ⟨k0, hk0, -, -, hkeys, -⟩ := getActiveKey_some cfg now s str s' hres
    by_cases hij : s'.currentIndex = j
    · subst hij
      have hkk : k0 = k := by
        rw [hk0] at hj
        exact Option.some.inj hj
      subst hkk
      refine ⟨clearIfCooldownPassed cfg now k0, ?_, ?_⟩
      · show s'.keys.get? s'.currentIndex = _
        rw [hkeys, List.get?_set_eq, hk0]
        rfl
      · exact clearIfCooldownPassed_fields cfg now k0
    · refine ⟨k, ?_, rfl, rfl, rfl⟩
      show s'.keys.get? j = some k
      rw [hkeys, List.get?_set_ne _ _ hij]
      exact hj

lemma markCurrentKeyFailed_records (cfg : KeyManagerConfig) (now : Nat)
    (s : ManagerState) (k : KeyState) (hk : s.keys.get? s.currentIndex = some k) :
    ∃ k', (markCurrentKeyFailed cfg now s).2.keys.get? s.currentIndex = some k' ∧
      k'.retryCount = k.retryCount + 1 ∧ k'.failedAt = some now ∧ k'.key = k.key ∧
      k'.isDead = (if cfg.maxRetries ≤ k.retryCount + 1 then true else k.isDead) := by
  rw [markCurrentKeyFailed_eq cfg now s k hk]
  rcases hrot : rotateToNextKey cfg now
      { s with keys := s.keys.set s.currentIndex (failedKeyUpdate cfg now k) }
    with ⟨b, s2⟩
  rw [rotateToNextKey] at hrot
  have hkeys := (rotateLoop_spec cfg now _ _ _ b s2 hrot).1
  dsimp only at hkeys
  obtain ⟨hrc, hfa, hky, hdead⟩ := failedKeyUpdate_fields cfg now k
  refine ⟨failedKeyUpdate cfg now k, ?_, hrc, hfa, hky, hdead⟩
  show s2.keys.get? s.currentIndex = _
  rw [hkeys, List.get?_set_eq, hk]
  rfl

lemma markCurrentKeyFailed_preserves_dead (cfg : KeyManagerConfig) (now : Nat)
    (s : ManagerState) (j : Nat) (k : KeyState) (hj : s.keys.get? j = some k)
    (hd : k.isDead = true) :
    ∃ k', (markCurrentKeyFailed cfg now s).2.keys.get? j = some k' ∧ k'.isDead = true := by
  by_cases hlen : s.keys.length = 0
  · rw [markCurrentKeyFailed, if_pos hlen]
    exact ⟨k, hj, hd⟩
  · cases hk : s.keys.get? s.currentIndex with
    | none =>
      rw [markCurrentKeyFailed, if_neg hlen]
      simp only [hk]
      exact ⟨k, hj, hd⟩
    | some k0 =>
      rw [markCurrentKeyFailed_eq cfg now s k0 hk]
      rcases hrot : rotateToNextKey cfg now
          { s with keys := s.keys.set s.currentIndex (failedKeyUpdate cfg now k0) }
        with ⟨b, s2⟩
      rw [rotateToNextKey] at hrot
      have hkeys := (rotateLoop_spec cfg now _ _ _ b s2 hrot).1
      dsimp only at hkeys
      by_cases hij : s.currentIndex = j
      · subst hij
        have hkk : k0 = k := by
          rw [hk] at hj
          exact Option.some.inj hj
        subst hkk
        refine ⟨failedKeyUpdate cfg now k0, ?_, ?_⟩
        · show s2.keys.get? s.currentIndex = _
          rw [hkeys, List.get?_set_eq, hk]
          rfl
        · rw [(failedKeyUpdate_fields cfg now k0).2.2.2]
          split <;> simp [hd]
      · refine ⟨k, ?_, hd⟩
        show s2.keys.get? j = some k
        rw [hkeys, List.get?_set_ne _ _ hij]
        exact hj

lemma markCurrentKeyFailed_rotated (cfg : KeyManagerConfig) (now : Nat)
    (s s2 : ManagerState) (h : markCurrentKeyFailed cfg now s = (true, s2)) :
    ∃ k', s2.keys.get? s2.currentIndex = some k' ∧ isKeyAvailable cfg now k' = true ∧
      s2.currentIndex < s2.keys.length := by
  by_cases hlen : s.keys.length = 0
  · rw [markCurrentKeyFailed, if_pos hlen] at h
    simp at h
  · cases hk : s.keys.get? s.currentIndex with
    | none =>
      rw [markCurrentKeyFailed, if_neg hlen] at h
      simp only [hk] at h
      simp at h
    | some k0 =>
      rw [markCurrentKeyFailed_eq cfg now s k0 hk] at h
      rw [rotateToNextKey] at h
      obtain ⟨hkeys, hfound⟩ := rotateLoop_spec cfg now _ _ _ true s2 h
      dsimp only at hkeys
      obtain ⟨k', hk', ha', hlt'⟩ := hfound rfl
      dsimp only at hk' hlt'
      refine ⟨k', ?_, ha', ?_⟩
      · rw [hkeys]
        exact hk'
      · rw [hkeys, List.length_set]
        rw [List.length_set] at hlt'
        exact hlt'

lemma markCurrentKeyFailed_rotated_getActiveKey (cfg : KeyManagerConfig) (now : Nat)
    (s s2 : ManagerState) (h : markCurrentKeyFailed cfg now s = (true, s2)) :
    ∃ nk s3, getActiveKey cfg now s2 = (some nk, s3) := by
  obtain ⟨k', hk', ha', -⟩ := markCurrentKeyFailed_rotated cfg now s s2 h
  exact ⟨k'.key, _, getActiveKey_avail_at_cursor cfg now s2 k' hk' ha'⟩

lemma resetAllKeys_clears (s : ManagerState) (j : Nat) (k : KeyState)
    (h : (resetAllKeys s).keys.get? j = some k) :
    k.isDead = false ∧ k.failedAt = none ∧ k.retryCount = 0 := by
  simp only [resetAllKeys, List.get?_map] at h
  cases hz : s.keys.get? j with
  | none => rw [hz] at h; simp at h
  | some orig =>
    rw [hz] at h
    simp only [Option.map_some'] at h
    have hK := Option.some.inj h
    subst hK
    exact ⟨rfl, rfl, rfl⟩

/-! ## Helper lemmas: getStatus counting -/

lemma getStatus_foldl_counts (cfg : KeyManagerConfig) (now : Nat) :
    ∀ (ks : List KeyState) (st : PoolStatus),
      (ks.foldl
        (fun st k =>
          if k.isDead then { st with dead := st.dead + 1 }
          else if isKeyAvailable cfg now k then { st with active := st.active + 1 }
          else { st with cooldown := st.cooldown + 1 })
        st).total = st.total ∧
      (ks.foldl
        (fun st k =>
          if k.isDead then { st with dead := st.dead + 1 }
          else if isKeyAvailable cfg now k then { st with active := st.active + 1 }
          else { st with cooldown := st.cooldown + 1 })
        st).dead = st.dead + ks.countP (fun k => k.isDead) ∧
      (ks.foldl
        (fun st k =>
          if k.isDead then { st with dead := st.dead + 1 }
          else if isKeyAvailable cfg now k then { st with active := st.active + 1 }
          else { st with cooldown := st.cooldown + 1 })
        st).active = st.active + ks.countP (fun k => !k.isDead && isKeyAvailable cfg now k) ∧
      (ks.foldl
        (fun st k =>
          if k.isDead then { st with dead := st.dead + 1 }
          else if isKeyAvailable cfg now k then { st with active := st.active + 1 }
          else { st with cooldown := st.cooldown + 1 })
        st).cooldown = st.cooldown + ks.countP (fun k => !k.isDead && !isKeyAvailable cfg now k) := by
  intro ks
  induction ks with
  | nil => intro st; simp
  | cons k ks ih =>
    intro st
    simp only [List.foldl_cons, List.countP_cons]
    by_cases hd : k.isDead = true
    · rw [if_pos hd]
      obtain ⟨h1, h2, h3, h4⟩ := ih { st with dead := st.dead + 1 }
      refine ⟨by rw [h1], ?_, ?_, ?_⟩
      · rw [h2]
        simp [hd]
        omega
      · rw [h3]
        simp [hd]
      · rw [h4]
        simp [hd]
    · rw [if_neg hd]
      have hd' : k.isDead = false := Bool.not_eq_true _ |>.mp hd
      by_cases ha : isKeyAvailable cfg now k = true
      · rw [if_pos ha]
        obtain ⟨h1, h2, h3, h4⟩ := ih { st with active := st.active + 1 }
        refine ⟨by rw [h1], ?_, ?_, ?_⟩
        · rw [h2]
          simp [hd']
        · rw [h3]
          simp [hd', ha]
          omega
        · rw [h4]
          simp [hd', ha]
      · rw [if_neg ha]
        have ha' : isKeyAvailable cfg now k = false := Bool.not_eq_true _ |>.mp ha
        obtain ⟨h1, h2, h3, h4⟩ := ih { st with cooldown := st.cooldown + 1 }
        refine ⟨by rw [h1], ?_, ?_, ?_⟩
        · rw [h2]
          simp [hd']
        · rw [h3]
          simp [hd', ha']
        · rw [h4]
          simp [hd', ha']
          omega

lemma countP_partition_keys (cfg : KeyManagerConfig) (now : Nat) :
    ∀ ks : List KeyState,
      ks.countP (fun k => k.isDead) +
      ks.countP (fun k => !k.isDead && isKeyAvailable cfg now k) +
      ks.countP (fun k => !k.isDead && !isKeyAvailable cfg now k) = ks.length := by
  intro ks
  induction ks with
  | nil => simp
  | cons k ks ih =>
    simp only [List.countP_cons, List.length_cons]
    cases hd : k.isDead <;> cases ha : isKeyAvailable cfg now k <;> simp [hd, ha] <;> omega

/-! ## Claim theorems: credential pool -/

/-- C10: for every pool state the `getStatus()` counts partition the pool:
`active + cooldown + dead = total`, `total` is the number of configured
keys, and each key is counted in exactly one class (dead if its dead flag is
set, active if available, cooldown otherwise). -/
theorem c10_status_partition (cfg : KeyManagerConfig) (now : Nat) (s : ManagerState) :
    (getStatus cfg now s).total = s.keys.length ∧
    (getStatus cfg now s).active + (getStatus cfg now s).cooldown + (getStatus cfg now s).dead =
      (getStatus cfg now s).total ∧
    (getStatus cfg now s).dead = s.keys.countP (fun k => k.isDead) ∧
    (getStatus cfg now s).active =
      s.keys.countP (fun k => !k.isDead && isKeyAvailable cfg now k) ∧
    (getStatus cfg now s).cooldown =
      s.keys.countP (fun k => !k.isDead && !isKeyAvailable cfg now k) := by
  obtain ⟨h1, h2, h3, h4⟩ := getStatus_foldl_counts cfg now s.keys ⟨s.keys.length, 0, 0, 0⟩
  have hp := countP_partition_keys cfg now s.keys
  rw [getStatus]
  refine ⟨by rw [h1], ?_, by rw [h2]; simp, by rw [h3]; simp, by rw [h4]; simp⟩
  rw [h1, h2, h3, h4]
  simp only []
  omega

/-- C1: once a credential accumulates `maxRetries` quota-class failures (the
failure recorded by `markCurrentKeyFailed` that brings `retryCount` to
`maxRetries` sets the dead flag), `getActiveKey` never returns that
credential again at any later time, the dead flag survives both
`getActiveKey` and further `markCurrentKeyFailed` calls, and only
`resetAllKeys` clears it. -/
theorem c1_dead_credential_permanent (cfg : KeyManagerConfig) (now : Nat) :
    (∀ (s : ManagerState) (k : KeyState),
      s.keys.get? s.currentIndex = some k →
      cfg.maxRetries ≤ k.retryCount + 1 →
      ∃ k', (markCurrentKeyFailed cfg now s).2.keys.get? s.currentIndex = some k' ∧
        k'.isDead = true ∧ k'.retryCount = k.retryCount + 1) ∧
    (∀ (s s' : ManagerState) (str : String) (i : Nat) (k : KeyState),
      (s.keys.map KeyState.key).Nodup →
      s.keys.get? i = some k → k.isDead = true →
      getActiveKey cfg now s = (some str, s') → str ≠ k.key) ∧
    (∀ (s : ManagerState) (j : Nat) (k : KeyState),
      s.keys.get? j = some k → k.isDead = true →
      ∃ k', (getActiveKey cfg now s).2.keys.get? j = some k' ∧ k'.isDead = true) ∧
    (∀ (s : ManagerState) (j : Nat) (k : KeyState),
      s.keys.get? j = some k → k.isDead = true →
      ∃ k', (markCurrentKeyFailed cfg now s).2.keys.get? j = some k' ∧ k'.isDead = true) ∧
    (∀ (s : ManagerState) (j : Nat) (k : KeyState),
      (resetAllKeys s).keys.get? j = some k → k.isDead = false) := by
  refine ⟨?_, ?_, ?_, ?_, ?_⟩
  · intro s k hk hmax
    obtain ⟨k', hget, hrc, -, -, hdead⟩ := markCurrentKeyFailed_records cfg now s k hk
    refine ⟨k', hget, ?_, hrc⟩
    rw [hdead, if_pos hmax]
  · intro s s' str i k hnd hi hd hres heq
    obtain ⟨k0, hk0, ha0, hstr, -, hlt0⟩ := getActiveKey_some cfg now s str s' hres
    have hkey : k0.key = k.key := by rw [← hstr, heq]
    have hmapi : (s.keys.map KeyState.key).get? i = some k.key := by
      rw [List.get?_map, hi]
      rfl
    have hmapc : (s.keys.map KeyState.key).get? s'.currentIndex = some k.key := by
      rw [List.get?_map, hk0, ← hkey]
      rfl
    obtain ⟨hilt, -⟩ := List.get?_eq_some.mp hi
    have hlen : i < (s.keys.map KeyState.key).length := by
      rw [List.length_map]
      exact hilt
    have hii : i = s'.currentIndex :=
      List.get?_inj hlen hnd (hmapi.trans hmapc.symm)
    have hkk : k = k0 := by
      rw [hii, hk0] at hi
      exact (Option.some.inj hi).symm
    rw [hkk] at hd
    rw [isKeyAvailable, if_pos hd] at ha0
    exact Bool.noConfusion ha0
  · intro s j k hj hd
    obtain ⟨k', hget, hdead, -, -⟩ := getActiveKey_preserves_fields cfg now s j k hj
    exact ⟨k', hget, hdead.trans hd⟩
  · intro s j k hj hd
    exact markCurrentKeyFailed_preserves_dead cfg now s j k hj hd
  · intro s j k hj
    exact (resetAllKeys_clears s j k hj).1

/-- Witness for C1 at concrete pools: a third failure with `maxRetries = 3`
kills the key; a pool whose first key is dead serves the second key and
preserves the dead flag across `getActiveKey` and `markCurrentKeyFailed`;
`resetAllKeys` yields live keys. -/
theorem c1_dead_credential_permanent_witness :
    (∃ k', (markCurrentKeyFailed ⟨100, 3⟩ 50
        ⟨[⟨"kA", none, 2, false⟩], 0⟩).2.keys.get? 0 = some k' ∧
      k'.isDead = true ∧ k'.retryCount = 3) ∧
    "kB" ≠ "kA" ∧
    (∃ k', (getActiveKey ⟨100, 3⟩ 500
        ⟨[⟨"kA", none, 0, true⟩, ⟨"kB", none, 0, false⟩], 0⟩).2.keys.get? 0 = some k' ∧
      k'.isDead = true) ∧
    (∃ k', (markCurrentKeyFailed ⟨100, 3⟩ 50
        ⟨[⟨"kA", none, 0, true⟩, ⟨"kB", none, 0, false⟩], 1⟩).2.keys.get? 0 = some k' ∧
      k'.isDead = true) ∧
    (KeyState.mk "kA" none 0 false).isDead = false := by
  obtain ⟨ha, hb, hc, hd, he⟩ := c1_dead_credential_permanent ⟨100, 3⟩ 50
  refine ⟨ha ⟨[⟨"kA", none, 2, false⟩], 0⟩ ⟨"kA", none, 2, false⟩ (by decide) (by decide),
    ?_, ?_, ?_, ?_⟩
  · exact c1_dead_credential_permanent ⟨100, 3⟩ 500 |>.2.1
      ⟨[⟨"kA", none, 0, true⟩, ⟨"kB", none, 0, false⟩], 0⟩
      ⟨[⟨"kA", none, 0, true⟩, ⟨"kB", none, 0, false⟩], 1⟩
      "kB" 0 ⟨"kA", none, 0, true⟩ (by decide) (by decide) (by decide) (by decide)
  · exact c1_dead_credential_permanent ⟨100, 3⟩ 500 |>.2.2.1
      ⟨[⟨"kA", none, 0, true⟩, ⟨"kB", none, 0, false⟩], 0⟩
      0 ⟨"kA", none, 0, true⟩ (by decide) (by decide)
  · exact hd ⟨[⟨"kA", none, 0, true⟩, ⟨"kB", none, 0, false⟩], 1⟩
      0 ⟨"kA", none, 0, true⟩ (by decide) (by decide)
  · exact he ⟨[⟨"kA", some 5, 3, true⟩], 2⟩ 0 ⟨"kA", none, 0, false⟩ (by decide)

/-- C5 counterexample: with key 0 in cooldown (failed at 50, elapsed 10 <
cooldown 100) and key 1 healthy, `getActiveKey` moves the cursor from 0 to
1, so a pure read does advance the rotation cursor. -/
theorem c5_counterexample :
    (getActiveKey ⟨100, 3⟩ 60
        ⟨[⟨"k0", some 50, 1, false⟩, ⟨"k1", none, 0, false⟩], 0⟩).2.currentIndex = 1 ∧
    (getActiveKey ⟨100, 3⟩ 60
        ⟨[⟨"k0", some 50, 1, false⟩, ⟨"k1", none, 0, false⟩], 0⟩).1 = some "k1" ∧
    (⟨[⟨"k0", some 50, 1, false⟩, ⟨"k1", none, 0, false⟩], 0⟩ : ManagerState).currentIndex
      = 0 := by decide

/-- C5 amended: `getActiveKey` leaves the cursor unchanged when the key at
the cursor is available, and when no key is available (the scan wraps back);
but when the cursor's key is unavailable and a later key is available, the
scan itself advances the cursor to the first available key — rotation inside
`markCurrentKeyFailed` is not the only cursor-advancing operation. -/
theorem c5_amended_cursor (cfg : KeyManagerConfig) (now : Nat) (s : ManagerState) :
    (∀ k, s.keys.get? s.currentIndex = some k → isKeyAvailable cfg now k = true →
      (getActiveKey cfg now s).2.currentIndex = s.currentIndex) ∧
    (s.currentIndex < s.keys.length → (getActiveKey cfg now s).1 = none →
      (getActiveKey cfg now s).2.currentIndex = s.currentIndex) ∧
    (∀ str s', getActiveKey cfg now s = (some str, s') →
      ∃ k, s.keys.get? s'.currentIndex = some k ∧
        isKeyAvailable cfg now k = true ∧ str = k.key) := by
  refine ⟨?_, ?_, ?_⟩
  · intro k hk ha
    rw [getActiveKey_avail_at_cursor cfg now s k hk ha]
  · intro hlt hnone
    rcases hres : getActiveKey cfg now s with ⟨r, s'⟩
    rw [hres] at hnone
    cases r with
    | some str => simp at hnone
    | none =>
      exact (getActiveKey_none cfg now s s' hres).2 hlt
  · intro str s' hres
    obtain ⟨k, hk, ha, hstr, -, -⟩ := getActiveKey_some cfg now s str s' hres
    exact ⟨k, hk, ha, hstr⟩

/-- Witness for the amended C5: an available key at the cursor keeps the
cursor; a fully cooling-down pool keeps the cursor; a selected key is
available at the final cursor. -/
theorem c5_amended_cursor_witness :
    ((getActiveKey ⟨100, 3⟩ 7 ⟨[⟨"k0", none, 0, false⟩], 0⟩).2.currentIndex = 0) ∧
    ((getActiveKey ⟨100, 3⟩ 7 ⟨[⟨"k0", some 6, 1, false⟩], 0⟩).2.currentIndex = 0) ∧
    (∃ k, (⟨[⟨"k0", some 50, 1, false⟩, ⟨"k1", none, 0, false⟩], 0⟩ : ManagerState).keys.get?
        (⟨[⟨"k0", some 50, 1, false⟩, ⟨"k1", none, 0, false⟩], 1⟩ : ManagerState).currentIndex
        = some k ∧
      isKeyAvailable ⟨100, 3⟩ 60 k = true ∧ "k1" = k.key) := by
  refine ⟨?_, ?_, ?_⟩
  · exact (c5_amended_cursor ⟨100, 3⟩ 7 ⟨[⟨"k0", none, 0, false⟩], 0⟩).1
      ⟨"k0", none, 0, false⟩ (by decide) (by decide)
  · exact (c5_amended_cursor ⟨100, 3⟩ 7 ⟨[⟨"k0", some 6, 1, false⟩], 0⟩).2.1
      (by decide) (by decide)
  · exact (c5_amended_cursor ⟨100, 3⟩ 60
        ⟨[⟨"k0", some 50, 1, false⟩, ⟨"k1", none, 0, false⟩], 0⟩).2.2
      "k1" ⟨[⟨"k0", some 50, 1, false⟩, ⟨"k1", none, 0, false⟩], 1⟩ (by decide)

/-- C6 counterexample: key 1 is in cooldown with elapsed 150 ≥ cooldown 100,
yet the next `getActiveKey` call returns key 0 (the first available key at
the cursor) and leaves key 1's `failedAt` set — so not every recovered
credential is returned and cleared by the next call. -/
theorem c6_counterexample :
    getActiveKey ⟨100, 3⟩ 150 ⟨[⟨"k0", none, 0, false⟩, ⟨"k1", some 0, 2, false⟩], 0⟩ =
      (some "k0", ⟨[⟨"k0", none, 0, false⟩, ⟨"k1", some 0, 2, false⟩], 0⟩) ∧
    (getActiveKey ⟨100, 3⟩ 150
        ⟨[⟨"k0", none, 0, false⟩, ⟨"k1", some 0, 2, false⟩], 0⟩).1 ≠ some "k1" ∧
    (getActiveKey ⟨100, 3⟩ 150
        ⟨[⟨"k0", none, 0, false⟩, ⟨"k1", some 0, 2, false⟩], 0⟩).2.keys.get? 1 =
      some ⟨"k1", some 0, 2, false⟩ := by decide

/-- C6 amended: when the credential `getActiveKey` selects (the first
available one in round-robin order from the cursor) is one whose cooldown
has elapsed, the call returns it and clears its `failedAt` while leaving its
`retryCount` unchanged; entries at all other positions are untouched. -/
theorem c6_amended_recovery (cfg : KeyManagerConfig) (now : Nat) (s : ManagerState)
    (str : String) (s' : ManagerState) (h : getActiveKey cfg now s = (some str, s')) :
    ∃ k, s.keys.get? s'.currentIndex = some k ∧ isKeyAvailable cfg now k = true ∧
      str = k.key ∧
      s'.keys.get? s'.currentIndex = some (clearIfCooldownPassed cfg now k) ∧
      (clearIfCooldownPassed cfg now k).retryCount = k.retryCount ∧
      (∀ t, k.failedAt = some t → (clearIfCooldownPassed cfg now k).failedAt = none) ∧
      (∀ j, j ≠ s'.currentIndex → s'.keys.get? j = s.keys.get? j) := by
  obtain ⟨k, hk, ha, hstr, hkeys, hlt⟩ := getActiveKey_some cfg now s str s' h
  refine ⟨k, hk, ha, hstr, ?_, (clearIfCooldownPassed_fields cfg now k).2.2, ?_, ?_⟩
  · rw [hkeys, List.get?_set_eq, hk]
    rfl
  · intro t hfa
    rw [isKeyAvailable] at ha
    cases hd : k.isDead with
    | true => rw [if_pos hd] at ha; exact Bool.noConfusion ha
    | false =>
      rw [if_neg (by rw [hd]; exact Bool.false_ne_true)] at ha
      rw [hfa] at ha
      dsimp only at ha
      rw [clearIfCooldownPassed, hfa]
      dsimp only
      rw [if_pos (of_decide_eq_true ha)]
  · intro j hj
    rw [hkeys, List.get?_set_ne _ _ (fun hcontra => hj hcontra.symm)]

/-- Witness for the amended C6: a single recovered key (failed at 0,
cooldown 100, now 100) is returned with `failedAt` cleared and `retryCount`
still 1. -/
theorem c6_amended_recovery_witness :
    ∃ k, (⟨[⟨"k1", some 0, 1, false⟩], 0⟩ : ManagerState).keys.get?
        (⟨[⟨"k1", none, 1, false⟩], 0⟩ : ManagerState).currentIndex = some k ∧
      isKeyAvailable ⟨100, 3⟩ 100 k = true ∧ "k1" = k.key ∧
      (⟨[⟨"k1", none, 1, false⟩], 0⟩ : ManagerState).keys.get?
        (⟨[⟨"k1", none, 1, false⟩], 0⟩ : ManagerState).currentIndex =
        some (clearIfCooldownPassed ⟨100, 3⟩ 100 k) ∧
      (clearIfCooldownPassed ⟨100, 3⟩ 100 k).retryCount = k.retryCount ∧
      (∀ t, k.failedAt = some t → (clearIfCooldownPassed ⟨100, 3⟩ 100 k).failedAt = none) ∧
      (∀ j, j ≠ (⟨[⟨"k1", none, 1, false⟩], 0⟩ : ManagerState).currentIndex →
        (⟨[⟨"k1", none, 1, false⟩], 0⟩ : ManagerState).keys.get? j =
          (⟨[⟨"k1", some 0, 1, false⟩], 0⟩ : ManagerState).keys.get? j) := by
  exact c6_amended_recovery ⟨100, 3⟩ 100 ⟨[⟨"k1", some 0, 1, false⟩], 0⟩
    "k1" ⟨[⟨"k1", none, 1, false⟩], 0⟩ (by decide)

/-! ## Helper lemmas: makeExaRequest branches -/

lemma makeExaRequest_override_err {T : Type} (cfg : KeyManagerConfig) (now : Nat)
    (s : ManagerState) (firstCall retryCall : String → CallOutcome T)
    (ov : String) (st : Nat) (m : String) (hov : ov ≠ "")
    (hf : firstCall ov = .failure st m) :
    makeExaRequest cfg now (some ov) s firstCall retryCall = (.err st m, s) := by
  simp only [makeExaRequest, Option.getD_some]
  rw [if_pos hov, hf]

lemma makeExaRequest_managed_nonbalance {T : Type} (cfg : KeyManagerConfig) (now : Nat)
    (s s1 : ManagerState) (firstCall retryCall : String → CallOutcome T)
    (key : String) (st : Nat) (m : String)
    (hga : getActiveKey cfg now s = (some key, s1)) (hkey : key ≠ "")
    (hf : firstCall key = .failure st m) (hbal : isBalanceError st m = false) :
    makeExaRequest cfg now none s firstCall retryCall = (.err st m, s1) := by
  simp only [makeExaRequest, Option.getD_none]
  rw [if_neg (by simp), hga]
  dsimp only
  rw [if_neg hkey, hf]
  dsimp only
  rw [if_neg (by rw [hbal]; exact Bool.false_ne_true)]

lemma makeExaRequest_pool_exhausted {T : Type} (cfg : KeyManagerConfig) (now : Nat)
    (s s1 s2 : ManagerState) (firstCall retryCall : String → CallOutcome T)
    (key : String) (st : Nat) (m : String)
    (hga : getActiveKey cfg now s = (some key, s1)) (hkey : key ≠ "")
    (hf : firstCall key = .failure st m) (hbal : isBalanceError st m = true)
    (hmk : markCurrentKeyFailed cfg now s1 = (false, s2)) :
    makeExaRequest cfg now none s firstCall retryCall =
      (.poolExhausted (getStatus cfg now s2), s2) := by
  simp only [makeExaRequest, Option.getD_none]
  rw [if_neg (by simp), hga]
  dsimp only
  rw [if_neg hkey, hf]
  dsimp only
  rw [if_pos hbal, hmk]

lemma makeExaRequest_retry_verbatim {T : Type} (cfg : KeyManagerConfig) (now : Nat)
    (s s1 s2 s3 : ManagerState) (firstCall retryCall : String → CallOutcome T)
    (key nk : String) (st : Nat) (m : String)
    (hga : getActiveKey cfg now s = (some key, s1)) (hkey : key ≠ "")
    (hf : firstCall key = .failure st m) (hbal : isBalanceError st m = true)
    (hmk : markCurrentKeyFailed cfg now s1 = (true, s2))
    (hga2 : getActiveKey cfg now s2 = (some nk, s3)) (hnk : nk ≠ "") :
    makeExaRequest cfg now none s firstCall retryCall =
      (match retryCall nk with
       | .success v => (ExaResult.ok v, s3)
       | .failure st2 m2 => (.err st2 m2, s3)) := by
  simp only [makeExaRequest, Option.getD_none]
  rw [if_neg (by simp), hga]
  dsimp only
  rw [if_neg hkey, hf]
  dsimp only
  rw [if_pos hbal, hmk]
  dsimp only
  rw [hga2]
  dsimp only
  rw [if_pos hnk]

/-! ## Claim theorems: failover request executor -/

/-- C2: for calls through `makeExaRequest`, a quota/balance-classified
failure on a pool-sourced key records the failure on the current key and
either retries exactly once with the rotated key (returning that outcome
verbatim) or fails with the distinguished pool-exhausted error carrying the
`getStatus` snapshot; rotation success always yields a new active key;
failures on a caller-supplied override key and non-quota failures propagate
immediately with the pool untouched. -/
theorem c2_failover_policy {T : Type} (cfg : KeyManagerConfig) (now : Nat)
    (firstCall retryCall : String → CallOutcome T) :
    (∀ (s : ManagerState) (ov : String) (st : Nat) (m : String), ov ≠ "" →
      firstCall ov = .failure st m →
      makeExaRequest cfg now (some ov) s firstCall retryCall = (.err st m, s)) ∧
    (∀ (s s1 : ManagerState) (key : String) (st : Nat) (m : String),
      getActiveKey cfg now s = (some key, s1) → key ≠ "" →
      firstCall key = .failure st m → isBalanceError st m = false →
      makeExaRequest cfg now none s firstCall retryCall = (.err st m, s1)) ∧
    (∀ (s s1 s2 : ManagerState) (key : String) (st : Nat) (m : String),
      getActiveKey cfg now s = (some key, s1) → key ≠ "" →
      firstCall key = .failure st m → isBalanceError st m = true →
      markCurrentKeyFailed cfg now s1 = (false, s2) →
      makeExaRequest cfg now none s firstCall retryCall =
        (.poolExhausted (getStatus cfg now s2), s2)) ∧
    (∀ (s s1 s2 s3 : ManagerState) (key nk : String) (st : Nat) (m : String),
      getActiveKey cfg now s = (some key, s1) → key ≠ "" →
      firstCall key = .failure st m → isBalanceError st m = true →
      markCurrentKeyFailed cfg now s1 = (true, s2) →
      getActiveKey cfg now s2 = (some nk, s3) → nk ≠ "" →
      makeExaRequest cfg now none s firstCall retryCall =
        (match retryCall nk with
         | .success v => (ExaResult.ok v, s3)
         | .failure st2 m2 => (.err st2 m2, s3))) ∧
    (∀ (s1 s2 : ManagerState), markCurrentKeyFailed cfg now s1 = (true, s2) →
      ∃ nk s3, getActiveKey cfg now s2 = (some nk, s3)) ∧
    (∀ (s1 : ManagerState) (k : KeyState), s1.keys.get? s1.currentIndex = some k →
      ∃ k', (markCurrentKeyFailed cfg now s1).2.keys.get? s1.currentIndex = some k' ∧
        k'.retryCount = k.retryCount + 1 ∧ k'.failedAt = some now) := by
  refine ⟨?_, ?_, ?_, ?_, ?_, ?_⟩
  · intro s ov st m hov hf
    exact makeExaRequest_override_err cfg now s firstCall retryCall ov st m hov hf
  · intro s s1 key st m hga hkey hf hbal
    exact makeExaRequest_managed_nonbalance cfg now s s1 firstCall retryCall
      key st m hga hkey hf hbal
  · intro s s1 s2 key st m hga hkey hf hbal hmk
    exact makeExaRequest_pool_exhausted cfg now s s1 s2 firstCall retryCall
      key st m hga hkey hf hbal hmk
  · intro s s1 s2 s3 key nk st m hga hkey hf hbal hmk hga2 hnk
    exact makeExaRequest_retry_verbatim cfg now s s1 s2 s3 firstCall retryCall
      key nk st m hga hkey hf hbal hmk hga2 hnk
  · intro s1 s2 hmk
    exact markCurrentKeyFailed_rotated_getActiveKey cfg now s1 s2 hmk
  · intro s1 k hk
    obtain ⟨k', hget, hrc, hfa, -, -⟩ := markCurrentKeyFailed_records cfg now s1 k hk
    exact ⟨k', hget, hrc, hfa⟩

/-- Witness for C2 at a concrete two-key pool with `maxRetries = 1`: a 402
on K1 kills it and rotates to K2, the retry outcome (`ok 7`) is returned
verbatim; with a single-key pool the same failure yields the pool-exhausted
error with snapshot `{total 1, active 0, cooldown 0, dead 1}`; an override
key failure propagates with the pool untouched. -/
theorem c2_failover_policy_witness :
    makeExaRequest ⟨100, 1⟩ 10 none
        ⟨[⟨"K1", none, 0, false⟩, ⟨"K2", none, 0, false⟩], 0⟩
        (fun k => if k = "K1" then CallOutcome.failure 402 "insufficient credit"
                  else CallOutcome.success 7)
        (fun _ => CallOutcome.success 7) =
      (ExaResult.ok 7, ⟨[⟨"K1", some 10, 1, true⟩, ⟨"K2", none, 0, false⟩], 1⟩) ∧
    makeExaRequest ⟨100, 1⟩ 10 none
        ⟨[⟨"K1", none, 0, false⟩], 0⟩
        (fun _ => CallOutcome.failure 402 "insufficient credit")
        (fun _ => CallOutcome.success (7 : Nat)) =
      (ExaResult.poolExhausted ⟨1, 0, 0, 1⟩, ⟨[⟨"K1", some 10, 1, true⟩], 0⟩) ∧
    makeExaRequest ⟨100, 1⟩ 10 (some "OVR")
        ⟨[⟨"K1", none, 0, false⟩], 0⟩
        (fun _ => CallOutcome.failure 402 "insufficient credit")
        (fun _ => CallOutcome.success (7 : Nat)) =
      (ExaResult.err 402 "insufficient credit", ⟨[⟨"K1", none, 0, false⟩], 0⟩) := by
  refine ⟨?_, ?_, ?_⟩
  · exact (c2_failover_policy ⟨100, 1⟩ 10
        (fun k => if k = "K1" then CallOutcome.failure 402 "insufficient credit"
                  else CallOutcome.success 7)
        (fun _ => CallOutcome.success 7)).2.2.2.1
      ⟨[⟨"K1", none, 0, false⟩, ⟨"K2", none, 0, false⟩], 0⟩
      ⟨[⟨"K1", none, 0, false⟩, ⟨"K2", none, 0, false⟩], 0⟩
      ⟨[⟨"K1", some 10, 1, true⟩, ⟨"K2", none, 0, false⟩], 1⟩
      ⟨[⟨"K1", some 10, 1, true⟩, ⟨"K2", none, 0, false⟩], 1⟩
      "K1" "K2" 402 "insufficient credit"
      (by decide) (by decide) (by decide) (by decide) (by decide) (by decide) (by decide)
  · exact (c2_failover_policy ⟨100, 1⟩ 10
        (fun _ => CallOutcome.failure 402 "insufficient credit")
        (fun _ => CallOutcome.success (7 : Nat))).2.2.1
      ⟨[⟨"K1", none, 0, false⟩], 0⟩
      ⟨[⟨"K1", none, 0, false⟩], 0⟩
      ⟨[⟨"K1", some 10, 1, true⟩], 0⟩
      "K1" 402 "insufficient credit"
      (by decide) (by decide) (by decide) (by decide) (by decide)
  · exact (c2_failover_policy ⟨100, 1⟩ 10
        (fun _ => CallOutcome.failure 402 "insufficient credit")
        (fun _ => CallOutcome.success (7 : Nat))).1
      ⟨[⟨"K1", none, 0, false⟩], 0⟩
      "OVR" 402 "insufficient credit" (by decide) (by decide)

/-- C7: a timeout outcome (status 408 as attached by `executeWithFetch`, or
status 0 as extracted from an axios timeout without a response) is never
classified as a balance/quota error, so it propagates through
`makeExaRequest` without recording a pool failure or rotating. -/
theorem c7_timeout_not_quota (timeoutMs : Nat) (msg : String) :
    isBalanceError timeoutErrorStatus (timeoutErrorMessage timeoutMs) = false ∧
    isBalanceError 408 msg = false ∧
    isBalanceError 0 msg = false ∧
    (∀ {T : Type} (cfg : KeyManagerConfig) (now : Nat) (s s1 : ManagerState)
      (firstCall retryCall : String → CallOutcome T) (key : String),
      getActiveKey cfg now s = (some key, s1) → key ≠ "" →
      firstCall key = .failure 408 msg →
      makeExaRequest cfg now none s firstCall retryCall = (.err 408 msg, s1)) := by
  have h408 : ∀ m : String, isBalanceError 408 m = false := by
    intro m
    rw [isBalanceError]
    rw [if_neg (by decide)]
    rw [if_neg (by simp)]
  have h0 : ∀ m : String, isBalanceError 0 m = false := by
    intro m
    rw [isBalanceError]
    rw [if_neg (by decide)]
    rw [if_neg (by simp)]
  refine ⟨h408 _, h408 _, h0 _, ?_⟩
  intro T cfg now s s1 firstCall retryCall key hga hkey hf
  exact makeExaRequest_managed_nonbalance cfg now s s1 firstCall retryCall
    key 408 msg hga hkey hf (h408 msg)

/-- Witness for C7: a concrete 408 timeout outcome on a fresh single-key
pool propagates as-is, with the pool state unchanged. -/
theorem c7_timeout_not_quota_witness :
    isBalanceError timeoutErrorStatus (timeoutErrorMessage 25000) = false ∧
    makeExaRequest ⟨100, 3⟩ 5 none ⟨[⟨"K1", none, 0, false⟩], 0⟩
        (fun _ => CallOutcome.failure 408 "Request timeout after 25000ms")
        (fun _ => CallOutcome.success (0 : Nat)) =
      (ExaResult.err 408 "Request timeout after 25000ms", ⟨[⟨"K1", none, 0, false⟩], 0⟩) := by
  refine ⟨(c7_timeout_not_quota 25000 "Request timeout after 25000ms").1, ?_⟩
  exact (c7_timeout_not_quota 25000 "Request timeout after 25000ms").2.2.2
    ⟨100, 3⟩ 5 ⟨[⟨"K1", none, 0, false⟩], 0⟩ ⟨[⟨"K1", none, 0, false⟩], 0⟩
    (fun _ => CallOutcome.failure 408 "Request timeout after 25000ms")
    (fun _ => CallOutcome.success (0 : Nat))
    "K1" (by decide) (by decide) (by decide)

/-! ## Helper lemmas: token registry construction -/

lemma upsertToken_ne_nil (l : List TokenInfo) (t : TokenInfo) : upsertToken l t ≠ [] := by
  rw [upsertToken]
  split
  · rename_i hany
    cases l with
    | nil => simp at hany
    | cons a as => simp
  · simp

lemma initializeTokens_foldl_ne_nil (createdAt : Nat) :
    ∀ (cfgs : List TokenConfigEntry) (acc : List TokenInfo), cfgs ≠ [] →
      cfgs.foldl
        (fun acc c =>
          upsertToken acc ⟨c.token, c.userId, c.role, c.expiresAt, createdAt, none, 0, true⟩)
        acc ≠ [] := by
  intro cfgs
  induction cfgs with
  | nil => intro acc h; exact absurd rfl h
  | cons c rest ih =>
    intro acc h
    simp only [List.foldl_cons]
    by_cases hr : rest = []
    · subst hr
      simp only [List.foldl_nil]
      exact upsertToken_ne_nil _ _
    · exact ih _ hr

/-! ## Claim theorems: token validation and gatekeeper -/

/-- C3 counterexample: on an empty registry the direct lookup
`TokenManager.validate` returns a denial (`Token not found`), not the
distinguished Valid-with-no-token passthrough result the claim requires. -/
theorem c3_counterexample :
    (validate [] 0 "sometoken").valid = false ∧
    (validate [] 0 "sometoken").reason = some "Token not found" := by
  exact ⟨rfl, rfl⟩

/-- C3 amended: token validation is total (both `validate` and
`validateAuthHeader` are total functions of their inputs, the empty string
included); on an empty registry the header entry point `validateAuthHeader`
returns Valid with no token (auth disabled) for every presented header,
while the direct registry lookup `validate` instead returns
Invalid("Token not found"). -/
theorem c3_empty_registry_validation (now : Nat) (x : String) (h : Option String) :
    validate [] now x = ⟨false, none, some "Token not found"⟩ ∧
    validateAuthHeader [] now h = ⟨true, none, some "No auth configured"⟩ := by
  exact ⟨rfl, rfl⟩

/-- C4 counterexample: with `USER_TOKENS = "abc:alice"` and `MCP_AUTH_TOKEN`
unset, the registry is non-empty (`hasTokens` is true) while
`isAuthRequired()` (which reads only `MCP_AUTH_TOKEN`) is false. -/
theorem c4_counterexample :
    isAuthRequired ⟨some "abc:alice", none⟩ = false ∧
    hasTokens (initializeTokens (fun _ => none) 0 ⟨some "abc:alice", none⟩) = true := by
  exact ⟨rfl, by decide⟩

/-- C4 amended: `isAuthRequired()` is true iff the legacy admin token
`MCP_AUTH_TOKEN` is set non-empty; registry non-emptiness is reported by
`TokenManager.hasTokens()` (true iff the parsed configuration is non-empty);
the two agree whenever `USER_TOKENS` is unset or empty, but a registry
populated from `USER_TOKENS` alone has `isAuthRequired() = false`. -/
theorem c4_amended_auth_required (parseDate : String → Option Nat) (env : EnvConfig)
    (now : Nat) :
    (isAuthRequired env = true ↔ env.mcpAuthToken.getD "" ≠ "") ∧
    (hasTokens (initializeTokens parseDate now env) = true ↔
      getTokensConfig parseDate env ≠ []) ∧
    (env.userTokens.getD "" = "" →
      isAuthRequired env = hasTokens (initializeTokens parseDate now env)) := by
  have hauth : isAuthRequired env = true ↔ env.mcpAuthToken.getD "" ≠ "" := by
    rw [isAuthRequired, getAuthToken]
    cases hmc : env.mcpAuthToken with
    | none => simp [jsTruthy]
    | some sTok => simp [jsTruthy]
  have hhas : hasTokens (initializeTokens parseDate now env) = true ↔
      getTokensConfig parseDate env ≠ [] := by
    rw [hasTokens, initializeTokens]
    constructor
    · intro hlen
      intro hnil
      rw [hnil] at hlen
      simp at hlen
    · intro hne
      have := initializeTokens_foldl_ne_nil now (getTokensConfig parseDate env) [] hne
      simp only [decide_eq_true_eq]
      cases hres : (getTokensConfig parseDate env).foldl
          (fun acc c =>
            upsertToken acc ⟨c.token, c.userId, c.role, c.expiresAt, now, none, 0, true⟩)
          [] with
      | nil => exact absurd hres this
      | cons a as => simp
  refine ⟨hauth, hhas, ?_⟩
  intro hUT
  have hcfg : getTokensConfig parseDate env =
      (if env.mcpAuthToken.getD "" ≠ ""
       then [⟨env.mcpAuthToken.getD "", none, TokenRole.admin, none⟩]
       else []) := by
    rw [getTokensConfig, hUT]
    simp
  by_cases hS : env.mcpAuthToken.getD "" = ""
  · have h1 : isAuthRequired env = false := by
      rw [isAuthRequired, getAuthToken]
      cases hmc : env.mcpAuthToken with
      | none => rfl
      | some sTok =>
        rw [hmc] at hS
        simp only [Option.getD_some] at hS
        simp [jsTruthy, hS]
    have h2 : hasTokens (initializeTokens parseDate now env) = false := by
      rw [initializeTokens, hcfg, if_neg (by simpa using hS)]
      rfl
    rw [h1, h2]
  · have h1 : isAuthRequired env = true := hauth.mpr hS
    have h2 : hasTokens (initializeTokens parseDate now env) = true := by
      apply hhas.mpr
      rw [hcfg, if_pos hS]
      simp
    rw [h1, h2]

/-- Witness for the amended C4: with only the legacy admin token set,
`isAuthRequired` agrees with registry non-emptiness. -/
theorem c4_amended_auth_required_witness :
    isAuthRequired ⟨none, some "admintok"⟩ =
      hasTokens (initializeTokens (fun _ => none) 0 ⟨none, some "admintok"⟩) := by
  exact (c4_amended_auth_required (fun _ => none) ⟨none, some "admintok"⟩ 0).2.2 (by decide)

/-! ## Helper lemmas: getStats counting -/

lemma getStats_foldl_counts (now : Nat) :
    ∀ (ts : List TokenInfo) (st : TokenUsageStats),
      (ts.foldl
        (fun st t =>
          let expired := tokenExpired now t
          { totalTokens := st.totalTokens
            activeTokens := st.activeTokens + (if ¬ expired ∧ t.isActive then 1 else 0)
            expiredTokens := st.expiredTokens + (if expired then 1 else 0)
            totalUsage := st.totalUsage + t.usageCount
            tokensByUser := bumpUser st.tokensByUser (t.userId.getD "anonymous") })
        st).totalTokens = st.totalTokens ∧
      (ts.foldl
        (fun st t =>
          let expired := tokenExpired now t
          { totalTokens := st.totalTokens
            activeTokens := st.activeTokens + (if ¬ expired ∧ t.isActive then 1 else 0)
            expiredTokens := st.expiredTokens + (if expired then 1 else 0)
            totalUsage := st.totalUsage + t.usageCount
            tokensByUser := bumpUser st.tokensByUser (t.userId.getD "anonymous") })
        st).activeTokens =
        st.activeTokens + ts.countP (fun t => !tokenExpired now t && t.isActive) ∧
      (ts.foldl
        (fun st t =>
          let expired := tokenExpired now t
          { totalTokens := st.totalTokens
            activeTokens := st.activeTokens + (if ¬ expired ∧ t.isActive then 1 else 0)
            expiredTokens := st.expiredTokens + (if expired then 1 else 0)
            totalUsage := st.totalUsage + t.usageCount
            tokensByUser := bumpUser st.tokensByUser (t.userId.getD "anonymous") })
        st).expiredTokens = st.expiredTokens + ts.countP (fun t => tokenExpired now t) ∧
      (ts.foldl
        (fun st t =>
          let expired := tokenExpired now t
          { totalTokens := st.totalTokens
            activeTokens := st.activeTokens + (if ¬ expired ∧ t.isActive then 1 else 0)
            expiredTokens := st.expiredTokens + (if expired then 1 else 0)
            totalUsage := st.totalUsage + t.usageCount
            tokensByUser := bumpUser st.tokensByUser (t.userId.getD "anonymous") })
        st).totalUsage = st.totalUsage + (ts.map TokenInfo.usageCount).sum := by
  intro ts
  induction ts with
  | nil => intro st; simp
  | cons t ts ih =>
    intro st
    simp only [List.foldl_cons, List.countP_cons, List.map_cons, List.sum_cons]
    obtain ⟨h1, h2, h3, h4⟩ := ih
      { totalTokens := st.totalTokens
        activeTokens := st.activeTokens + (if ¬ tokenExpired now t ∧ t.isActive then 1 else 0)
        expiredTokens := st.expiredTokens + (if tokenExpired now t then 1 else 0)
        totalUsage := st.totalUsage + t.usageCount
        tokensByUser := bumpUser st.tokensByUser (t.userId.getD "anonymous") }
    refine ⟨by rw [h1], ?_, ?_, ?_⟩
    · rw [h2]
      cases he : tokenExpired now t <;> cases ha : t.isActive <;>
        simp [he, ha] <;> omega
    · rw [h3]
      cases he : tokenExpired now t <;> simp [he] <;> omega
    · rw [h4]
      dsimp only
      omega

lemma countP_partition_tokens (now : Nat) :
    ∀ ts : List TokenInfo,
      ts.countP (fun t => tokenExpired now t) +
      ts.countP (fun t => !tokenExpired now t && t.isActive) +
      ts.countP (fun t => !tokenExpired now t && !t.isActive) = ts.length := by
  intro ts
  induction ts with
  | nil => simp
  | cons t ts ih =>
    simp only [List.countP_cons, List.length_cons]
    cases he : tokenExpired now t <;> cases ha : t.isActive <;>
      simp [he, ha] <;> omega

/-- C8: `getStats` counts every token in exactly one class: `activeTokens`
counts tokens that are active and not expired, `expiredTokens` counts tokens
past `expiresAt` regardless of the `isActive` flag, disabled non-expired
tokens appear in neither count (only in `totalTokens`), and `totalUsage`
sums all tokens' usage counters. -/
theorem c8_stats_classification (now : Nat) (tokens : List TokenInfo) :
    (getStats now tokens).totalTokens = tokens.length ∧
    (getStats now tokens).activeTokens =
      tokens.countP (fun t => !tokenExpired now t && t.isActive) ∧
    (getStats now tokens).expiredTokens =
      tokens.countP (fun t => tokenExpired now t) ∧
    (getStats now tokens).activeTokens + (getStats now tokens).expiredTokens +
      tokens.countP (fun t => !tokenExpired now t && !t.isActive) =
      (getStats now tokens).totalTokens ∧
    (getStats now tokens).totalUsage = (tokens.map TokenInfo.usageCount).sum := by
  obtain ⟨h1, h2, h3, h4⟩ :=
    getStats_foldl_counts now tokens ⟨tokens.length, 0, 0, 0, []⟩
  have hp := countP_partition_tokens now tokens
  rw [getStats]
  refine ⟨by rw [h1], by rw [h2]; simp, by rw [h3]; simp, ?_, by rw [h4]; simp⟩
  rw [h1, h2, h3]
  simp only []
  omega

/-- C9 counterexample: for the 3-character token `"abc"` the listed masked
value is `"abc..."`, which contains the complete token as a prefix — the
full secret is revealed for tokens of at most 8 characters. -/
theorem c9_counterexample :
    (listTokens 0 [⟨"abc", none, TokenRole.user, none, 0, none, 5, true⟩]).get? 0 =
      some ⟨"abc...", none, TokenRole.user, none, true, false, 5, none⟩ ∧
    "abc".data <:+: "abc...".data := by
  exact ⟨by decide, by decide⟩

/-- C9 amended: every `listTokens` entry masks its token to the first 8
characters followed by `"..."`; for token values longer than 11 characters
the complete token never appears inside the masked value, but tokens of at
most 8 characters are contained in it verbatim. -/
theorem c9_masked_tokens (now : Nat) (tokens : List TokenInfo) (e : ListedToken)
    (he : e ∈ listTokens now tokens) :
    ∃ t, t ∈ tokens ∧ e.tokenMasked = maskToken t.token ∧
      (11 < t.token.data.length → ¬ (t.token.data <:+: e.tokenMasked.data)) := by
  rw [listTokens] at he
  obtain ⟨t, ht, hft⟩ := List.mem_map.mp he
  refine ⟨t, ht, ?_, ?_⟩
  · rw [← hft]
  · intro hlen hinf
    have hle := hinf.length_le
    rw [← hft] at hle
    have hdata : (maskToken t.token).data = t.token.data.take 8 ++ "...".data := rfl
    rw [hdata] at hle
    rw [List.length_append, List.length_take] at hle
    have h3 : ("...".data).length = 3 := rfl
    rw [h3] at hle
    omega

/-- Witness for the amended C9 at a 12-character token: the listed value is
`"abcdefgh..."` and does not contain the full token. -/
theorem c9_masked_tokens_witness :
    ∃ t, t ∈ [(⟨"abcdefghijkl", none, TokenRole.user, none, 0, none, 0, true⟩ : TokenInfo)] ∧
      ListedToken.tokenMasked
          ⟨"abcdefgh...", none, TokenRole.user, none, true, false, 0, none⟩ =
        maskToken t.token ∧
      (11 < t.token.data.length →
        ¬ (t.token.data <:+:
            (ListedToken.tokenMasked
              ⟨"abcdefgh...", none, TokenRole.user, none, true, false, 0, none⟩).data)) := by
  exact c9_masked_tokens 0
    [⟨"abcdefghijkl", none, TokenRole.user, none, 0, none, 0, true⟩]
    ⟨"abcdefgh...", none, TokenRole.user, none, true, false, 0, none⟩
    (by decide)
